import Mathlib

/-!
# WASI processors: a shallow embedding of `internal/impl/wasm`

The two processors of the package (`wazeroWASIProcessor`, which captures the
guest's standard streams in memory, and `wasmtimeWASIProcessor`, which
redirects standard output into a scratch file) are embedded as pure functions
with explicit state passing.  What lies outside the package (the two WASM
engines, the operating system's file calls) appears either as a parameter
(the engines) or as a small explicit model (the filesystem).
-/

namespace Wasm

/-! ## Bytes, strings and errors -/

/-- Go's `[]byte`. -/
abbrev Bytes := List UInt8

/-- Go's `string`: an immutable byte sequence, not necessarily valid UTF-8. -/
abbrev GoString := List UInt8

/-- Conversion `string(b)` of a byte slice: the same bytes. -/
def string (b : Bytes) : GoString := b

/-- Bytes of a string literal of the sources (all of them are ASCII). -/
def lit (s : String) : GoString := s.toList.map (fun c => c.toNat.toUInt8)

/-- Rendering of an unsigned integer by the verb `%d`: its decimal digits. -/
def fmtD (n : Nat) : GoString := lit (Nat.repr n)

/-- Path names, as the sequence of their components.  The empty sequence is
the empty string `""`. -/
abbrev Path := List String

/-- Go `error` values, as far as the processors tell them apart. -/
inductive GoError where
  /-- A `*sys.ExitError` of wazero, carrying the guest's `uint32` exit code. -/
  | exitError (code : Nat)
  /-- A `*fs.PathError` of package `os`; `notExist` says whether
  `errors.Is(err, os.ErrNotExist)` holds of it. -/
  | pathError (op : String) (path : Path) (notExist : Bool)
  /-- An error made by `errors.New` or by `fmt.Errorf` without `%w`: only a message. -/
  | errorString (msg : GoString)
  /-- An error made by `fmt.Errorf(pfx + "%w", err)`. -/
  | wrapError (pfx : GoString) (err : GoError)
  /-- Any other error value (an engine trap, a failed instantiation, a message
  that cannot be serialised), identified by its message. -/
  | other (msg : GoString)
  deriving DecidableEq, Repr

/-- The test `errors.Is(err, os.ErrNotExist)`, which looks through wrapping. -/
def GoError.isNotExist : GoError → Bool
  | .pathError _ _ ne => ne
  | .wrapError _ e => e.isNotExist
  | _ => false

/-- The type assertion `err.(*sys.ExitError)`: it succeeds only on a value whose
dynamic type is `*sys.ExitError` itself (a wrapped one does not qualify) and
then gives its `ExitCode()`. -/
def GoError.asExitError : GoError → Option Nat
  | .exitError c => some c
  | _ => none

/-! ## Messages -/

/-- Modelled from the spec: the pipeline's message type `service.Message` is
declared outside these sources.  A message carries one payload of unstructured
bytes; `AsBytes` yields it, or an error when the message has no serialised
form; `SetBytes` replaces the payload by the given bytes. -/
structure Message where
  payload : Except GoError Bytes

/-- The call `msg.AsBytes()`. -/
def Message.AsBytes (msg : Message) : Except GoError Bytes := msg.payload

/-- The call `msg.SetBytes(b)`, as the new state of the message. -/
def Message.SetBytes (_msg : Message) (b : Bytes) : Message := { payload := .ok b }

/-- The call `service.NewMessage(b)`. -/
def NewMessage (b : Bytes) : Message := { payload := .ok b }

/-- Go's `service.MessageBatch`. -/
abbrev MessageBatch := List Message

/-! ## The wazero processor (buffered capture) -/

/-- What one call of `runtime.InstantiateModule` does, as `Process` observes it:
the error it returns, the bytes the guest wrote to the two writers given by
`WithStdout` and `WithStderr` (they are written whether or not the run ends
in an error), and, for a call that fails before any module exists (a
rejected argument, a failed instantiation), whether the module returned
along with the error is nil. -/
structure WazeroRun where
  err : Option GoError
  stdout : Bytes
  stderr : Bytes
  nilOnFailure : Bool
  deriving DecidableEq, Repr

/-- Whether the module returned by the call is nil.  A call without error
returns the module, and so does a call ended by an exit of `_start` (the
module, closed already); only an error of another kind can come with a nil
module. -/
def WazeroRun.modIsNil (run : WazeroRun) : Bool :=
  match run.err with
  | none => false
  | some err =>
    match err.asExitError with
    | some _ => false
    | none => run.nilOnFailure

/-- The compiled module `wazero.CompiledModule`, identified by its binary. -/
structure CompiledModule where
  binary : Bytes
  deriving DecidableEq, Repr

/-- The runtime `wazero.Runtime`: its one operation used per message, the
instantiation (which runs `_start`) of a compiled module with a given
argument vector. -/
structure Runtime where
  InstantiateModule : CompiledModule → List GoString → WazeroRun

/-- The struct `wazeroWASIProcessor`. -/
structure wazeroWASIProcessor where
  runtime : Runtime
  code : CompiledModule

/-- Everything a call of `wazeroWASIProcessor.Process` leaves behind: whether
the call ended in a run-time panic instead of returning, the two returned
values (`none` for `nil`), the state of `*msg` and of `*p` after the call,
and the argument vector given to the engine, if the engine was reached. -/
structure WazeroResult where
  panicked : Bool
  batch : Option MessageBatch
  err : Option GoError
  msg : Message
  proc : wazeroWASIProcessor
  argv : Option (List GoString)

/-- The method `(*wazeroWASIProcessor).Process`.  The fresh `outBuf` and `errBuf`
of the call hold what the guest wrote.  The call `mod.Close(ctx)` stands
before the test of `err`: on a nil module it panics; on a module its result
is discarded and it touches none of the state followed here. -/
def wazeroWASIProcessor.Process (p : wazeroWASIProcessor) (msg : Message) : WazeroResult :=
  match msg.AsBytes with
  | .error err => ⟨false, none, some err, msg, p, none⟩
  | .ok inBytes =>
    let args : List GoString := [lit "benthos_wasi", string inBytes]
    let run := p.runtime.InstantiateModule p.code args
    let outBuf := run.stdout
    let errBuf := run.stderr
    if run.modIsNil then ⟨true, none, none, msg, p, some args⟩
    else
      let fail (e : GoError) : WazeroResult := ⟨false, none, some e, msg, p, some args⟩
      let rest : WazeroResult :=
        if errBuf.length > 0 then
          fail (.errorString (lit "wasi stderr: " ++ errBuf))
        else
          let msg1 := msg.SetBytes outBuf
          ⟨false, some [msg1], none, msg1, p, some args⟩
      match run.err with
      | none => rest
      | some err =>
        match err.asExitError with
        | some code =>
          if code ≠ 0 then fail (.errorString (lit "exit_code: " ++ fmtD code)) else rest
        | none => fail err

/-! ## The filesystem

The calls of package `os` (and the engine's opening of the redirected output
file) act on an explicit filesystem state: a finite table from path names to
nodes.  Permissions are not part of the model, so the only failures are those
that follow from what exists at a path. -/

/-- What a path names: a regular file with its contents, or a directory. -/
inductive Node where
  | file (data : Bytes)
  | dir
  deriving DecidableEq, Repr

/-- A filesystem state: the table of the paths that exist. -/
structure FS where
  entries : List (Path × Node)
  deriving DecidableEq, Repr

/-- The node of the first entry of a table for the path `p`. -/
def FS.lookup (p : Path) : List (Path × Node) → Option Node
  | [] => none
  | e :: es => if e.1 = p then some e.2 else FS.lookup p es

/-- The node at a path, if the path exists. -/
def FS.get (fs : FS) (p : Path) : Option Node := FS.lookup p fs.entries

/-- Whether the path is an existing directory. -/
def FS.isDir (fs : FS) (p : Path) : Bool := decide (fs.get p = some Node.dir)

/-- The table without the path `p`. -/
def FS.erase (fs : FS) (p : Path) : FS := ⟨fs.entries.filter (fun e => decide (e.1 ≠ p))⟩

/-- The table with the node `n` at `p`: replaced where `p` exists, added otherwise. -/
def FS.put (fs : FS) (p : Path) (n : Node) : FS :=
  if (fs.get p).isSome then ⟨fs.entries.map (fun e => if e.1 = p then (p, n) else e)⟩
  else ⟨(p, n) :: fs.entries⟩

/-- Whether some path strictly below `p` exists. -/
def FS.hasEntryBelow (fs : FS) (p : Path) : Bool :=
  fs.entries.any (fun e => decide (p <+: e.1 ∧ e.1 ≠ p))

/-- The table without `p` and without every path below `p`. -/
def FS.eraseTree (fs : FS) (p : Path) : FS := ⟨fs.entries.filter (fun e => decide (¬ p <+: e.1))⟩

/-- Whether some path strictly above `p` is a regular file. -/
def FS.underFile (fs : FS) (p : Path) : Bool :=
  p.dropLast.inits.any (fun q =>
    match fs.get q with
    | some (.file _) => true
    | _ => false)

/-- The call `filepath.Join(dir, name)` for a single-component `name`. -/
def filepath.Join (dir : Path) (name : String) : Path := dir ++ [name]

/-- The error of the call `op` on a path that names nothing: it satisfies
`os.ErrNotExist` (`ENOENT`), unless the way to the path leads through a
regular file (`ENOTDIR`). -/
def os.missing (fs : FS) (op : String) (name : Path) : GoError :=
  if !fs.isDir name.dropLast && fs.underFile name then .pathError op name false
  else .pathError op name true

/-- The call `os.Truncate(name, size)`: a regular file is cut or zero-extended to
`size` bytes; a directory gives an error; a missing path gives the error of
`os.missing`. -/
def os.Truncate (fs : FS) (name : Path) (size : Nat) : FS × Option GoError :=
  match fs.get name with
  | some (.file data) =>
    (fs.put name (.file (data.take size ++ List.replicate (size - data.length) 0)), none)
  | some .dir => (fs, some (.pathError "truncate" name false))
  | none => (fs, some (os.missing fs "truncate" name))

/-- The call `os.ReadFile(name)`. -/
def os.ReadFile (fs : FS) (name : Path) : Except GoError Bytes :=
  match fs.get name with
  | some (.file data) => .ok data
  | some .dir => .error (.pathError "read" name false)
  | none => .error (os.missing fs "open" name)

/-- The call `os.Remove(name)`: removes the named file or empty directory. -/
def os.Remove (fs : FS) (name : Path) : FS × Option GoError :=
  match fs.get name with
  | some (.file _) => (fs.erase name, none)
  | some .dir =>
    if fs.hasEntryBelow name then (fs, some (.pathError "remove" name false))
    else (fs.erase name, none)
  | none => (fs, some (os.missing fs "remove" name))

/-- The call `os.RemoveAll(path)`: removes `path` and everything below it; a
missing path is not an error, and the empty path is left alone. -/
def os.RemoveAll (fs : FS) (path : Path) : FS × Option GoError :=
  if path = [] then (fs, none) else (fs.eraseTree path, none)

/-- What `os.MkdirTemp` takes from the process environment: the directory
`os.TempDir()` and the random strings it draws, in order, for the names it tries. -/
structure os.Env where
  TempDir : Path
  random : List String

/-- The loop of `os.MkdirTemp` over the names it tries: the first name that
does not exist yet is created as a directory. -/
def os.mkdirTempLoop (fs : FS) (dir : Path) (pattern : String) : List String → Except GoError (FS × Path)
  | [] => .error (.pathError "mkdirtemp" (filepath.Join dir pattern) false)
  | r :: rs =>
    let name := filepath.Join dir (pattern ++ r)
    if (fs.get name).isSome then os.mkdirTempLoop fs dir pattern rs
    else if fs.isDir dir then .ok (fs.put name .dir, name)
    else .error (os.missing fs "mkdir" name)

/-- The call `os.MkdirTemp(dir, pattern)` for a pattern without `*`: a new
directory whose name is the pattern followed by a random string, inside `dir`,
or inside `os.TempDir()` when `dir` is empty. -/
def os.MkdirTemp (env : os.Env) (fs : FS) (dir : Path) (pattern : String) : Except GoError (FS × Path) :=
  os.mkdirTempLoop fs (if dir = [] then env.TempDir else dir) pattern env.random

/-! ## The wasmtime processor (file-redirected capture) -/

/-- What instantiating and running the guest does, as `Process` observes it:
the error of `linker.Instantiate`, whether the instance exports `_start`, the
error of the call of `_start`, and the bytes the guest wrote to its standard
output and to its standard error while it ran. -/
structure WasmtimeRun where
  instantiateErr : Option GoError
  hasStart : Bool
  callErr : Option GoError
  stdout : Bytes
  stderr : Bytes
  deriving DecidableEq, Repr

/-- The module `*wasmtime.Module`, identified by its binary. -/
structure Module where
  binary : Bytes
  deriving DecidableEq, Repr

/-- The engine `*wasmtime.Engine`, with the behaviour of the library on it:
the verdict of `wasmtime.NewModule` on a binary, the result of
`linker.DefineWasi`, and what a fresh store with a given argument vector does
when the module is instantiated in it and `_start` is called. -/
structure Engine where
  NewModule : Bytes → Option GoError
  DefineWasi : Option GoError
  run : Module → List GoString → WasmtimeRun

/-- The linker `*wasmtime.Linker` of an engine. -/
structure Linker where
  engine : Engine

/-- The struct `wasmtimeWASIProcessor`. -/
structure wasmtimeWASIProcessor where
  engine : Engine
  module : Module
  linker : Linker
  stdoutPath : Path
  ioDir : Path
  removeIODir : Bool

/-- The call `wasiConfig.SetStdoutFile(path)`: the engine opens the file for
writing, creating it when it is missing.  (Whether the engine also empties an
existing file cannot be seen from `Process`, which has emptied it before.) -/
def WasiConfig.SetStdoutFile (fs : FS) (path : Path) : FS × Option GoError :=
  match fs.get path with
  | some (.file _) => (fs, none)
  | some .dir => (fs, some (.other (lit "failed to open file")))
  | none =>
    if fs.isDir path.dropLast then (fs.put path (.file []), none)
    else (fs, some (.other (lit "failed to open file")))

/-- Whether the scratch path can be opened for writing: it names a regular
file, or it names nothing and its parent is a directory. -/
def FS.canOpen (fs : FS) (path : Path) : Bool :=
  match fs.get path with
  | some (.file _) => true
  | some .dir => false
  | none => fs.isDir path.dropLast

/-- The guest's writes to the redirected standard output: the bytes `w` go to
the open file from offset 0 on. -/
def guestWrite (fs : FS) (path : Path) (w : Bytes) : FS :=
  match fs.get path with
  | some (.file old) => fs.put path (.file (w ++ old.drop w.length))
  | _ => fs

/-- Everything a call of `wasmtimeWASIProcessor.Process` leaves behind: whether
the call ended in a run-time panic instead of returning, the two returned
values (`none` for `nil`), the state of `*msg`, of `*p` and of the filesystem
after the call, and the argument vector given to the engine, if the engine was
reached. -/
structure WasmtimeResult where
  panicked : Bool
  batch : Option MessageBatch
  err : Option GoError
  msg : Message
  proc : wasmtimeWASIProcessor
  fs : FS
  argv : Option (List GoString)

/-- The method `(*wasmtimeWASIProcessor).Process`.  When the instance has no
export `_start`, `GetFunc` gives `nil` and the call through it panics. -/
def wasmtimeWASIProcessor.Process (p : wasmtimeWASIProcessor) (fs : FS) (msg : Message) :
    WasmtimeResult :=
  match msg.AsBytes with
  | .error err => ⟨false, none, some err, msg, p, fs, none⟩
  | .ok inBytes =>
    let (fs1, terr) := os.Truncate fs p.stdoutPath 0
    match terr.filter (fun err => !err.isNotExist) with
    | some err => ⟨false, none, some err, msg, p, fs1, none⟩
    | none =>
      let argv : List GoString := [lit "BENTHOS_WASI", string inBytes]
      match WasiConfig.SetStdoutFile fs1 p.stdoutPath with
      | (fs2, some err) => ⟨false, none, some err, msg, p, fs2, none⟩
      | (fs2, none) =>
        let run := p.engine.run p.module argv
        let fs3 := guestWrite fs2 p.stdoutPath run.stdout
        let fail (e : GoError) : WasmtimeResult := ⟨false, none, some e, msg, p, fs3, some argv⟩
        match run.instantiateErr with
        | some err => fail (.wrapError (lit "failed to create wasmtime instance: ") err)
        | none =>
          if !run.hasStart then ⟨true, none, none, msg, p, fs3, some argv⟩
          else
            match run.callErr with
            | some err => fail (.wrapError (lit "failed to call _start: ") err)
            | none =>
              match os.ReadFile fs3 p.stdoutPath with
              | .error err => fail (.wrapError (lit "failed to read stdout: ") err)
              | .ok out =>
                let msg1 := msg.SetBytes out
                ⟨false, some [msg1], none, msg1, p, fs3, some argv⟩

/-- The function `newWasmtimeWASIProcessor`; `engine` is what
`wasmtime.NewEngine()` gives.  It returns the processor and the filesystem
state it leaves. -/
def newWasmtimeWASIProcessor (engine : Engine) (env : os.Env) (fs : FS) (wasmBinary : Bytes)
    (ioDir : Path) : Except GoError (wasmtimeWASIProcessor × FS) :=
  match engine.NewModule wasmBinary with
  | some err => .error err
  | none =>
    let module : Module := ⟨wasmBinary⟩
    let linker : Linker := ⟨engine⟩
    match engine.DefineWasi with
    | some err => .error err
    | none =>
      let p : wasmtimeWASIProcessor :=
        { engine := engine, module := module, linker := linker,
          stdoutPath := [], ioDir := [], removeIODir := false }
      if ioDir = [] then
        match os.MkdirTemp env fs [] "benthos_wasi_proc" with
        | .error err => .error err
        | .ok (fs1, ioDir1) =>
          let p := { p with removeIODir := true }
          let p := { p with ioDir := ioDir1 }
          .ok ({ p with stdoutPath := filepath.Join p.ioDir "tmp.stdout" }, fs1)
      else
        let p := { p with ioDir := ioDir }
        .ok ({ p with stdoutPath := filepath.Join p.ioDir "tmp.stdout" }, fs)

/-- The method `(*wasmtimeWASIProcessor).Close`, as the filesystem it leaves
and the error it returns. -/
def wasmtimeWASIProcessor.Close (p : wasmtimeWASIProcessor) (fs : FS) : FS × Option GoError :=
  if p.removeIODir then os.RemoveAll fs p.ioDir
  else
    let (fs1, _) := os.Remove fs p.stdoutPath
    (fs1, none)

/-! ## Concrete inputs -/

/-- A guest that answers with its second argument followed by `!`, writes one
byte to its error stream, and returns normally. -/
def echoRun (argv : List GoString) : WasmtimeRun :=
  ⟨none, true, none, argv.getLastD [] ++ [33], [7]⟩

/-- A wasmtime engine on which every module behaves like `echoRun`. -/
def echoEngine : Engine :=
  { NewModule := fun _ => none, DefineWasi := none, run := fun _ argv => echoRun argv }

/-- A filesystem with a temporary directory and a caller's directory `data`
that holds a file of the caller and an old scratch file. -/
def sampleFS : FS :=
  ⟨[(["tmp"], .dir), (["data"], .dir), (["data", "keep"], .file [1]),
    (["data", "tmp.stdout"], .file [9, 9, 9, 9, 9, 9, 9, 9])]⟩

/-- A wasmtime processor on the caller's directory `data`. -/
def sampleProc : wasmtimeWASIProcessor :=
  { engine := echoEngine, module := ⟨[0]⟩, linker := ⟨echoEngine⟩,
    stdoutPath := ["data", "tmp.stdout"], ioDir := ["data"], removeIODir := false }

/-- The processor `p` on an engine whose guests write the bytes `e` to their
error stream and otherwise behave as on the engine of `p`. -/
def wasmtimeWASIProcessor.withStderr (p : wasmtimeWASIProcessor) (e : Bytes) :
    wasmtimeWASIProcessor :=
  { p with engine := { p.engine with run := fun m a => { p.engine.run m a with stderr := e } } }

/-- A wazero processor whose guest ends as `err` says, having written `out`
and `errOut` to its two streams. -/
def fixedProc (err : Option GoError) (out errOut : Bytes) : wazeroWASIProcessor :=
  { runtime := ⟨fun _ _ => ⟨err, out, errOut, false⟩⟩, code := ⟨[0]⟩ }

/-- A wazero runtime that turns down an argument vector with a zero byte in it
before any module exists (nil module and an error), and on every other
vector runs a guest that writes its last argument to standard output. -/
def strictRuntime : Runtime :=
  ⟨fun _ args =>
    if args.any (fun a => decide (0 ∈ a)) then
      ⟨some (.other (lit "args invalid: contains NUL character")), [], [], true⟩
    else ⟨none, args.getLastD [], [], false⟩⟩

/-- A wazero processor on `strictRuntime`. -/
def strictProc : wazeroWASIProcessor := { runtime := strictRuntime, code := ⟨[0]⟩ }

/-- A wazero processor whose module cannot be instantiated (an import is not
provided): every call of the engine gives a nil module and an error. -/
def unlinkedProc : wazeroWASIProcessor :=
  { runtime := ⟨fun _ _ => ⟨some (.other (lit "instantiation failed")), [], [], true⟩⟩,
    code := ⟨[0]⟩ }

/-- What a guest reads of an argument that reached it as a C string: the bytes
before the first zero byte. -/
def cString (a : GoString) : Bytes := a.takeWhile (fun x => x != 0)

/-- A wasmtime engine whose guests get their arguments as C strings; the guest
answers with its second argument followed by `!`. -/
def cStringEngine : Engine :=
  { NewModule := fun _ => none, DefineWasi := none,
    run := fun _ argv => ⟨none, true, none, cString (argv.getLastD []) ++ [33], []⟩ }

/-- The sample processor on `cStringEngine`. -/
def cStringProc : wasmtimeWASIProcessor :=
  { sampleProc with engine := cStringEngine, linker := ⟨cStringEngine⟩ }

/-! ## The wazero processor: what `Process` returns -/

theorem wazero_process_of_error (p : wazeroWASIProcessor) (msg : Message) (e : GoError)
    (h : msg.AsBytes = .error e) : p.Process msg = ⟨false, none, some e, msg, p, none⟩ := by
  simp [wazeroWASIProcessor.Process, h]

/-- The result of `Process` by cases on how the engine's call ended. -/
theorem wazero_process_of_bytes (p : wazeroWASIProcessor) (msg : Message) (b : Bytes)
    (h : msg.AsBytes = .ok b) :
    p.Process msg =
      (let args : List GoString := [lit "benthos_wasi", b]
       let run := p.runtime.InstantiateModule p.code args
       let rest : WazeroResult :=
         if run.stderr = [] then
           ⟨false, some [msg.SetBytes run.stdout], none, msg.SetBytes run.stdout, p, some args⟩
         else
           ⟨false, none, some (.errorString (lit "wasi stderr: " ++ run.stderr)), msg, p,
             some args⟩
       match run.err with
       | none => rest
       | some (.exitError 0) => rest
       | some (.exitError c) =>
         ⟨false, none, some (.errorString (lit "exit_code: " ++ fmtD c)), msg, p, some args⟩
       | some e =>
         if run.nilOnFailure = true then ⟨true, none, none, msg, p, some args⟩
         else ⟨false, none, some e, msg, p, some args⟩) := by
  have hlen : ∀ l : Bytes, (0 < l.length) = (l ≠ []) := by
    intro l; cases l <;> simp
  simp only [wazeroWASIProcessor.Process, h, string, gt_iff_lt, hlen, WazeroRun.modIsNil]
  cases hr : (p.runtime.InstantiateModule p.code [lit "benthos_wasi", b]).err with
  | none =>
    by_cases hs : (p.runtime.InstantiateModule p.code [lit "benthos_wasi", b]).stderr = [] <;>
      simp [hs]
  | some e =>
    cases e with
    | exitError c =>
      cases c with
      | zero =>
        by_cases hs : (p.runtime.InstantiateModule p.code [lit "benthos_wasi", b]).stderr = [] <;>
          simp [GoError.asExitError, hs]
      | succ n => simp [GoError.asExitError]
    | _ => simp [GoError.asExitError]

/-- C2: when the engine's call ends with a `*sys.ExitError` whose code `c` is not
zero, `wazeroWASIProcessor.Process` returns a nil batch and the error whose
message is `exit_code: ` followed by the decimal digits of `c`, whatever the
guest wrote to its standard output and standard error; the message is left
as it was. -/
theorem C2_nonzero_exit_code (p : wazeroWASIProcessor) (msg : Message) (b : Bytes) (c : Nat)
    (hb : msg.AsBytes = .ok b) (hc : c ≠ 0)
    (hexit : (p.runtime.InstantiateModule p.code [lit "benthos_wasi", b]).err
      = some (.exitError c)) :
    (p.Process msg).batch = none ∧
    (p.Process msg).err = some (.errorString (lit "exit_code: " ++ fmtD c)) ∧
    (p.Process msg).msg = msg := by
  rw [wazero_process_of_bytes p msg b hb]
  cases c with
  | zero => exact absurd rfl hc
  | succ n => simp [hexit]

theorem C2_nonzero_exit_code_witness :
    ((fixedProc (some (.exitError 3)) [1, 2] [4]).Process (NewMessage [104, 105])).batch = none ∧
    ((fixedProc (some (.exitError 3)) [1, 2] [4]).Process (NewMessage [104, 105])).err
      = some (.errorString (lit "exit_code: " ++ fmtD 3)) ∧
    ((fixedProc (some (.exitError 3)) [1, 2] [4]).Process (NewMessage [104, 105])).msg
      = NewMessage [104, 105] :=
  C2_nonzero_exit_code (fixedProc (some (.exitError 3)) [1, 2] [4]) (NewMessage [104, 105])
    [104, 105] 3 rfl (by decide) rfl

/-- C3, as the code has it: when the guest has written a non-empty byte sequence
to its error stream and the engine's call ends without an error or with a
`*sys.ExitError` of code 0, `wazeroWASIProcessor.Process` returns a nil batch
and the error whose message is `wasi stderr: ` followed by exactly those
bytes. -/
theorem C3_stderr_reported_on_clean_exit (p : wazeroWASIProcessor) (msg : Message) (b : Bytes)
    (hb : msg.AsBytes = .ok b)
    (hne : (p.runtime.InstantiateModule p.code [lit "benthos_wasi", b]).stderr ≠ [])
    (hend : (p.runtime.InstantiateModule p.code [lit "benthos_wasi", b]).err = none ∨
      (p.runtime.InstantiateModule p.code [lit "benthos_wasi", b]).err = some (.exitError 0)) :
    (p.Process msg).batch = none ∧
    (p.Process msg).err = some (.errorString (lit "wasi stderr: " ++
      (p.runtime.InstantiateModule p.code [lit "benthos_wasi", b]).stderr)) := by
  rw [wazero_process_of_bytes p msg b hb]
  rcases hend with h | h <;> simp [h, hne]

theorem C3_stderr_reported_on_clean_exit_witness :
    ((fixedProc (some (.exitError 0)) [1, 2] [4, 5]).Process (NewMessage [104])).batch = none ∧
    ((fixedProc (some (.exitError 0)) [1, 2] [4, 5]).Process (NewMessage [104])).err
      = some (.errorString (lit "wasi stderr: " ++ [4, 5])) :=
  C3_stderr_reported_on_clean_exit (fixedProc (some (.exitError 0)) [1, 2] [4, 5])
    (NewMessage [104]) [104] rfl (by decide) (Or.inr rfl)

/-- C3 as stated fails: a guest that writes the byte `101` to its error stream and
exits with code 1 makes `Process` return the exit-code error, not the error
built from the error stream. -/
theorem C3_stderr_with_nonzero_exit_counterexample :
    (fixedProc (some (.exitError 1)) [] [101]).runtime.InstantiateModule
        (fixedProc (some (.exitError 1)) [] [101]).code [lit "benthos_wasi", [104]]
      = ⟨some (.exitError 1), [], [101], false⟩ ∧
    ((fixedProc (some (.exitError 1)) [] [101]).Process (NewMessage [104])).err
      = some (.errorString (lit "exit_code: " ++ [49])) ∧
    ((fixedProc (some (.exitError 1)) [] [101]).Process (NewMessage [104])).err
      ≠ some (.errorString (lit "wasi stderr: " ++ [101])) := by
  refine ⟨rfl, by decide, by decide⟩

/-- C4: when the engine's call ends without an error or with a `*sys.ExitError` of
code 0, and the guest wrote nothing to its error stream,
`wazeroWASIProcessor.Process` returns a nil error and the batch of the one
message, now carrying the guest's standard output; and the whole result is
the one `Process` gives when the call ends without an error, all else being
equal. -/
theorem C4_exit_zero_is_success (p : wazeroWASIProcessor) (msg : Message) (b : Bytes)
    (hb : msg.AsBytes = .ok b)
    (hend : (p.runtime.InstantiateModule p.code [lit "benthos_wasi", b]).err = none ∨
      (p.runtime.InstantiateModule p.code [lit "benthos_wasi", b]).err = some (.exitError 0))
    (hquiet : (p.runtime.InstantiateModule p.code [lit "benthos_wasi", b]).stderr = []) :
    (p.Process msg).err = none ∧
    (p.Process msg).batch = some [msg.SetBytes
      (p.runtime.InstantiateModule p.code [lit "benthos_wasi", b]).stdout] ∧
    (msg.SetBytes (p.runtime.InstantiateModule p.code [lit "benthos_wasi", b]).stdout).AsBytes
      = .ok (p.runtime.InstantiateModule p.code [lit "benthos_wasi", b]).stdout ∧
    (p.Process msg).batch =
      (wazeroWASIProcessor.Process
        { p with runtime := ⟨fun code args =>
            { p.runtime.InstantiateModule code args with err := none }⟩ } msg).batch ∧
    (p.Process msg).err =
      (wazeroWASIProcessor.Process
        { p with runtime := ⟨fun code args =>
            { p.runtime.InstantiateModule code args with err := none }⟩ } msg).err := by
  rw [wazero_process_of_bytes p msg b hb, wazero_process_of_bytes _ msg b hb]
  rcases hend with h | h <;> simp [h, hquiet, Message.SetBytes, Message.AsBytes]

theorem C4_exit_zero_is_success_witness :
    ((fixedProc (some (.exitError 0)) [1, 2] []).Process (NewMessage [104])).err = none ∧
    ((fixedProc (some (.exitError 0)) [1, 2] []).Process (NewMessage [104])).batch
      = some [NewMessage [1, 2]] :=
  ⟨(C4_exit_zero_is_success (fixedProc (some (.exitError 0)) [1, 2] []) (NewMessage [104])
      [104] rfl (Or.inr rfl) rfl).1,
   (C4_exit_zero_is_success (fixedProc (some (.exitError 0)) [1, 2] []) (NewMessage [104])
      [104] rfl (Or.inr rfl) rfl).2.1⟩


/-! ## The filesystem table: what the operations do to `get` -/

theorem FS.lookup_map_put (es : List (Path × Node)) (p q : Path) (n : Node) :
    FS.lookup q (es.map (fun e => if e.1 = p then (p, n) else e)) =
      if q = p then (FS.lookup p es).map (fun _ => n) else FS.lookup q es := by
  induction es with
  | nil => simp [FS.lookup]
  | cons e es ih =>
    obtain ⟨k, v⟩ := e
    simp only [List.map_cons, FS.lookup, ih]
    by_cases hk : k = p
    · by_cases hq : q = p
      · simp [hk, hq]
      · have : ¬ p = q := fun h => hq h.symm
        simp [hk, hq, this]
    · by_cases hq : q = p
      · simp [hk, hq]
      · simp [hk, hq]

theorem FS.get_put (fs : FS) (p q : Path) (n : Node) :
    (fs.put p n).get q = if q = p then some n else fs.get q := by
  unfold FS.put FS.get
  cases hl : FS.lookup p fs.entries with
  | none =>
    simp only [Option.isSome_none, Bool.false_eq_true, if_false, FS.lookup]
    by_cases hq : q = p
    · simp [hq]
    · have : ¬ p = q := fun h => hq h.symm
      simp [hq, this]
  | some v =>
    simp only [Option.isSome_some, if_true, FS.lookup_map_put, hl]
    by_cases hq : q = p
    · simp [hq]
    · simp [hq]

theorem FS.lookup_filter (es : List (Path × Node)) (f : Path → Bool) (q : Path) :
    FS.lookup q (es.filter (fun e => f e.1)) = if f q then FS.lookup q es else none := by
  induction es with
  | nil => simp [FS.lookup]
  | cons e es ih =>
    obtain ⟨k, v⟩ := e
    by_cases hk : f k
    · simp only [List.filter_cons, hk, if_true, FS.lookup, ih]
      by_cases hq : k = q
      · subst hq; simp [hk]
      · simp [hq]
    · have hk' : f k = false := by simpa using hk
      simp only [List.filter_cons, hk', FS.lookup]
      by_cases hq : k = q
      · subst hq; simp [hk', ih]
      · simp [hq, ih]

theorem FS.get_erase (fs : FS) (p q : Path) :
    (fs.erase p).get q = if q = p then none else fs.get q := by
  have := FS.lookup_filter fs.entries (fun k => decide (k ≠ p)) q
  simp only [FS.erase, FS.get, this]
  by_cases hq : q = p <;> simp [hq]

theorem FS.get_eraseTree (fs : FS) (p q : Path) :
    (fs.eraseTree p).get q = if p <+: q then none else fs.get q := by
  have := FS.lookup_filter fs.entries (fun k => decide (¬ p <+: k)) q
  simp only [FS.eraseTree, FS.get, this]
  by_cases hq : p <+: q <;> simp [hq]

theorem FS.eraseTree_eraseTree (fs : FS) (p : Path) :
    (fs.eraseTree p).eraseTree p = fs.eraseTree p := by
  simp [FS.eraseTree, List.filter_filter]

theorem FS.lookup_ne_none_of_mem (es : List (Path × Node)) (k : Path) (v : Node)
    (h : (k, v) ∈ es) : FS.lookup k es ≠ none := by
  induction es with
  | nil => simp at h
  | cons e es ih =>
    obtain ⟨k', v'⟩ := e
    simp only [FS.lookup]
    by_cases hk : k' = k
    · simp [hk]
    · have : (k, v) ∈ es := by
        rcases List.mem_cons.mp h with h | h
        · exact absurd (congrArg Prod.fst h).symm hk
        · exact h
      simp [hk, ih this]

theorem FS.eraseTree_of_absent (fs : FS) (p : Path) (h : ∀ q, p <+: q → fs.get q = none) :
    fs.eraseTree p = fs := by
  obtain ⟨es⟩ := fs
  simp only [FS.eraseTree, FS.mk.injEq]
  rw [List.filter_eq_self]
  intro e he
  obtain ⟨k, v⟩ := e
  have := FS.lookup_ne_none_of_mem es k v he
  by_cases hk : p <+: k
  · exact absurd (h k hk) this
  · simpa using hk


theorem FS.lookup_map_self (es : List (Path × Node)) (p : Path) (n : Node)
    (h : FS.lookup p es = none) : es.map (fun e => if e.1 = p then (p, n) else e) = es := by
  induction es with
  | nil => rfl
  | cons e es ih =>
    obtain ⟨k, v⟩ := e
    simp only [FS.lookup] at h
    by_cases hk : k = p
    · simp [hk] at h
    · simp only [hk, if_false] at h
      simp [hk, ih h]

theorem FS.put_put (fs : FS) (p : Path) (a b : Node) : (fs.put p a).put p b = fs.put p b := by
  have hget : ((fs.put p a).get p).isSome = true := by simp [FS.get_put]
  have h1 : (fs.put p a).put p b
      = ⟨(fs.put p a).entries.map (fun e => if e.1 = p then (p, b) else e)⟩ := by
    rw [FS.put, if_pos hget]
  rw [h1]
  unfold FS.put
  cases hl : FS.lookup p fs.entries with
  | none =>
    have hn : (fs.get p).isSome = false := by simp [FS.get, hl]
    simp [hn, FS.lookup_map_self fs.entries p b hl]
  | some v =>
    have hs : (fs.get p).isSome = true := by simp [FS.get, hl]
    simp only [hs, if_true, List.map_map, FS.mk.injEq]
    apply List.map_congr_left
    intro e _
    by_cases hk : e.1 = p <;> simp [hk]

/-! ## The wasmtime processor: what `Process` returns -/

theorem wasmtime_process_of_error (p : wasmtimeWASIProcessor) (fs : FS) (msg : Message)
    (e : GoError) (h : msg.AsBytes = .error e) :
    p.Process fs msg = ⟨false, none, some e, msg, p, fs, none⟩ := by
  simp [wasmtimeWASIProcessor.Process, h]

/-- When the scratch path cannot be opened, `Process` fails before the engine is
reached: on the truncation when the path is a directory or lies below a
regular file, on the redirection when the path is missing and so is its
directory. -/
theorem wasmtime_process_blocked (p : wasmtimeWASIProcessor) (fs : FS) (msg : Message)
    (b : Bytes) (hb : msg.AsBytes = .ok b) (hopen : fs.canOpen p.stdoutPath = false) :
    p.Process fs msg = ⟨false, none,
      some (if fs.get p.stdoutPath = none then
          (if fs.underFile p.stdoutPath = true then .pathError "truncate" p.stdoutPath false
            else .other (lit "failed to open file"))
        else .pathError "truncate" p.stdoutPath false), msg, p, fs, none⟩ := by
  unfold FS.canOpen at hopen
  cases hg : fs.get p.stdoutPath with
  | none =>
    simp only [hg] at hopen
    by_cases hu : fs.underFile p.stdoutPath = true
    · simp [wasmtimeWASIProcessor.Process, hb, os.Truncate, hg, GoError.isNotExist,
        Option.filter, os.missing, hopen, hu]
    · simp [wasmtimeWASIProcessor.Process, hb, os.Truncate, hg, GoError.isNotExist,
        Option.filter, WasiConfig.SetStdoutFile, os.missing, hopen, hu]
  | some node =>
    cases node with
    | file old => simp [hg] at hopen
    | dir =>
      simp [wasmtimeWASIProcessor.Process, hb, os.Truncate, hg, GoError.isNotExist,
        Option.filter]

/-- When the scratch path can be opened, the guest runs with the scratch file
empty, and the result of `Process` goes by how the run ends. -/
theorem wasmtime_process_reached (p : wasmtimeWASIProcessor) (fs : FS) (msg : Message)
    (b : Bytes) (hb : msg.AsBytes = .ok b) (hopen : fs.canOpen p.stdoutPath = true) :
    p.Process fs msg =
      (let argv : List GoString := [lit "BENTHOS_WASI", b]
       let run := p.engine.run p.module argv
       let fs3 := fs.put p.stdoutPath (.file run.stdout)
       match run.instantiateErr with
       | some err =>
         ⟨false, none, some (.wrapError (lit "failed to create wasmtime instance: ") err),
           msg, p, fs3, some argv⟩
       | none =>
         if run.hasStart = false then ⟨true, none, none, msg, p, fs3, some argv⟩
         else
           match run.callErr with
           | some err =>
             ⟨false, none, some (.wrapError (lit "failed to call _start: ") err),
               msg, p, fs3, some argv⟩
           | none =>
             ⟨false, some [msg.SetBytes run.stdout], none, msg.SetBytes run.stdout, p, fs3,
               some argv⟩) := by
  have key : ∀ w : Bytes,
      (let (fs1, terr) := os.Truncate fs p.stdoutPath 0
       (terr.filter (fun err => !err.isNotExist),
        (WasiConfig.SetStdoutFile fs1 p.stdoutPath).2,
        guestWrite (WasiConfig.SetStdoutFile fs1 p.stdoutPath).1 p.stdoutPath w))
      = (none, none, fs.put p.stdoutPath (.file w)) := by
    intro w
    unfold FS.canOpen at hopen
    cases hg : fs.get p.stdoutPath with
    | none =>
      simp only [hg] at hopen
      simp [os.Truncate, hg, GoError.isNotExist, Option.filter, WasiConfig.SetStdoutFile, hopen,
        os.missing, guestWrite, FS.get_put, FS.put_put]
    | some node =>
      cases node with
      | dir => simp [hg] at hopen
      | file old =>
        simp [os.Truncate, hg, Option.filter, WasiConfig.SetStdoutFile, guestWrite, FS.get_put,
          FS.put_put]
  have k := key (p.engine.run p.module [lit "BENTHOS_WASI", b]).stdout
  revert k
  simp only [wasmtimeWASIProcessor.Process, hb, string]
  rcases os.Truncate fs p.stdoutPath 0 with ⟨fs1, terr⟩
  simp only
  rcases hs : WasiConfig.SetStdoutFile fs1 p.stdoutPath with ⟨fs2, serr⟩
  simp only [Prod.mk.injEq]
  rintro ⟨h1, h2, h3⟩
  subst h2
  simp only [h1, h3, os.ReadFile, FS.get_put, if_true]
  cases (p.engine.run p.module [lit "BENTHOS_WASI", b]).instantiateErr with
  | some e => rfl
  | none =>
    cases (p.engine.run p.module [lit "BENTHOS_WASI", b]).hasStart with
    | false => simp
    | true =>
      cases (p.engine.run p.module [lit "BENTHOS_WASI", b]).callErr with
      | some e => simp
      | none => simp


/-- C1: for every payload and every guest run that ends normally, `Process`
returns no error and a batch of exactly one message, whose contents are
exactly the bytes the guest wrote to its standard output during the run: for
wazero (no error from the engine, nothing on the error stream) the contents
of the call's `outBuf`; for wasmtime (the engine was reached, instantiation
and the call of `_start` gave no error) the contents of the scratch file
after the run. -/
theorem C1_normal_run_returns_stdout (msg : Message) (b : Bytes) (hb : msg.AsBytes = .ok b) :
    (∀ p : wazeroWASIProcessor,
      (p.runtime.InstantiateModule p.code [lit "benthos_wasi", b]).err = none →
      (p.runtime.InstantiateModule p.code [lit "benthos_wasi", b]).stderr = [] →
      (p.Process msg).err = none ∧
      (p.Process msg).batch = some [msg.SetBytes
        (p.runtime.InstantiateModule p.code [lit "benthos_wasi", b]).stdout] ∧
      (msg.SetBytes (p.runtime.InstantiateModule p.code [lit "benthos_wasi", b]).stdout).AsBytes
        = .ok (p.runtime.InstantiateModule p.code [lit "benthos_wasi", b]).stdout) ∧
    (∀ (p : wasmtimeWASIProcessor) (fs : FS),
      (p.Process fs msg).argv ≠ none →
      (p.engine.run p.module [lit "BENTHOS_WASI", b]).instantiateErr = none →
      (p.engine.run p.module [lit "BENTHOS_WASI", b]).hasStart = true →
      (p.engine.run p.module [lit "BENTHOS_WASI", b]).callErr = none →
      (p.Process fs msg).panicked = false ∧
      (p.Process fs msg).err = none ∧
      (p.Process fs msg).batch = some [msg.SetBytes
        (p.engine.run p.module [lit "BENTHOS_WASI", b]).stdout] ∧
      (msg.SetBytes (p.engine.run p.module [lit "BENTHOS_WASI", b]).stdout).AsBytes
        = .ok (p.engine.run p.module [lit "BENTHOS_WASI", b]).stdout ∧
      (p.Process fs msg).fs.get p.stdoutPath
        = some (.file (p.engine.run p.module [lit "BENTHOS_WASI", b]).stdout)) := by
  constructor
  · intro p herr hquiet
    rw [wazero_process_of_bytes p msg b hb]
    simp [herr, hquiet, Message.SetBytes, Message.AsBytes]
  · intro p fs hargv hinst hstart hcall
    cases hopen : fs.canOpen p.stdoutPath with
    | false =>
      rw [wasmtime_process_blocked p fs msg b hb hopen] at hargv
      exact absurd rfl hargv
    | true =>
      rw [wasmtime_process_reached p fs msg b hb hopen]
      simp [hinst, hstart, hcall, Message.SetBytes, Message.AsBytes, FS.get_put]

theorem C1_normal_run_returns_stdout_witness :
    ((fixedProc none [1, 2] []).Process (NewMessage [104])).batch = some [NewMessage [1, 2]] ∧
    (sampleProc.Process sampleFS (NewMessage [104, 105])).batch
      = some [NewMessage [104, 105, 33]] ∧
    (sampleProc.Process sampleFS (NewMessage [104, 105])).fs.get ["data", "tmp.stdout"]
      = some (.file [104, 105, 33]) :=
  ⟨((C1_normal_run_returns_stdout (NewMessage [104]) [104] rfl).1
      (fixedProc none [1, 2] []) rfl rfl).2.1,
   ((C1_normal_run_returns_stdout (NewMessage [104, 105]) [104, 105] rfl).2
      sampleProc sampleFS (by decide) rfl rfl rfl).2.2.1,
   ((C1_normal_run_returns_stdout (NewMessage [104, 105]) [104, 105] rfl).2
      sampleProc sampleFS (by decide) rfl rfl rfl).2.2.2.2⟩


/-- A successful return of the wasmtime `Process` carries the standard output of
that very run, whatever the filesystem held before. -/
theorem wasmtime_success_is_this_run (p : wasmtimeWASIProcessor) (fs : FS) (msg : Message)
    (b : Bytes) (hb : msg.AsBytes = .ok b) (herr : (p.Process fs msg).err = none)
    (hret : (p.Process fs msg).panicked = false) :
    (p.Process fs msg).batch
      = some [msg.SetBytes (p.engine.run p.module [lit "BENTHOS_WASI", b]).stdout] := by
  cases hopen : fs.canOpen p.stdoutPath with
  | false =>
    rw [wasmtime_process_blocked p fs msg b hb hopen] at herr
    simp at herr
  | true =>
    rw [wasmtime_process_reached p fs msg b hb hopen] at herr hret ⊢
    revert herr hret
    dsimp only
    cases (p.engine.run p.module [lit "BENTHOS_WASI", b]).instantiateErr with
    | some e => simp
    | none =>
      cases (p.engine.run p.module [lit "BENTHOS_WASI", b]).hasStart with
      | false => simp
      | true =>
        cases (p.engine.run p.module [lit "BENTHOS_WASI", b]).callErr with
        | some e => simp
        | none => simp

/-- C5: in the file-redirected strategy a successful `Process` returns exactly what
the guest wrote to its standard output during that run, whatever the scratch
file held before: (1) any call that returns without error carries the
standard output of its own run; (2) so does the second of two sequential
calls on one processor, whatever the first call was and however it ended;
(3) when the run ends normally the call succeeds from every prior state of
the scratch file, missing (in an existing directory) or holding any contents
at all, and leaves the file holding exactly the new output. -/
theorem C5_no_leftover_from_earlier_runs (p : wasmtimeWASIProcessor) (msg : Message)
    (b : Bytes) (hb : msg.AsBytes = .ok b) :
    (∀ fs : FS, (p.Process fs msg).err = none → (p.Process fs msg).panicked = false →
      (p.Process fs msg).batch
        = some [msg.SetBytes (p.engine.run p.module [lit "BENTHOS_WASI", b]).stdout]) ∧
    (∀ (fs : FS) (msg0 : Message),
      (p.Process (p.Process fs msg0).fs msg).err = none →
      (p.Process (p.Process fs msg0).fs msg).panicked = false →
      (p.Process (p.Process fs msg0).fs msg).batch
        = some [msg.SetBytes (p.engine.run p.module [lit "BENTHOS_WASI", b]).stdout]) ∧
    (∀ fs : FS,
      (p.engine.run p.module [lit "BENTHOS_WASI", b]).instantiateErr = none →
      (p.engine.run p.module [lit "BENTHOS_WASI", b]).hasStart = true →
      (p.engine.run p.module [lit "BENTHOS_WASI", b]).callErr = none →
      ((∃ old, fs.get p.stdoutPath = some (.file old)) ∨
        (fs.get p.stdoutPath = none ∧ fs.isDir p.stdoutPath.dropLast = true)) →
      (p.Process fs msg).err = none ∧ (p.Process fs msg).panicked = false ∧
      (p.Process fs msg).batch
        = some [msg.SetBytes (p.engine.run p.module [lit "BENTHOS_WASI", b]).stdout] ∧
      (p.Process fs msg).fs.get p.stdoutPath
        = some (.file (p.engine.run p.module [lit "BENTHOS_WASI", b]).stdout)) := by
  refine ⟨fun fs => wasmtime_success_is_this_run p fs msg b hb,
    fun fs msg0 => wasmtime_success_is_this_run p _ msg b hb, ?_⟩
  intro fs hinst hstart hcall hprior
  have hopen : fs.canOpen p.stdoutPath = true := by
    unfold FS.canOpen
    rcases hprior with ⟨old, h⟩ | ⟨h, hd⟩
    · simp [h]
    · simp [h, hd]
  rw [wasmtime_process_reached p fs msg b hb hopen]
  simp [hinst, hstart, hcall, FS.get_put]

theorem C5_no_leftover_from_earlier_runs_witness :
    (sampleProc.Process (sampleProc.Process sampleFS (NewMessage [104, 105, 106, 107])).fs
        (NewMessage [104])).batch = some [NewMessage [104, 33]] ∧
    (sampleProc.Process sampleFS (NewMessage [104])).fs.get ["data", "tmp.stdout"]
      = some (.file [104, 33]) :=
  ⟨(C5_no_leftover_from_earlier_runs sampleProc (NewMessage [104]) [104] rfl).2.1
      sampleFS (NewMessage [104, 105, 106, 107]) (by decide) (by decide),
   ((C5_no_leftover_from_earlier_runs sampleProc (NewMessage [104]) [104] rfl).2.2
      sampleFS rfl rfl rfl (Or.inl ⟨[9, 9, 9, 9, 9, 9, 9, 9], by decide⟩)).2.2.2⟩

/-- C6 as stated fails: on the sample processor the guest writes the byte `7` to its
error stream and returns normally, and `Process` returns no error and the
batch carrying the guest's standard output. -/
theorem C6_stderr_ignored_counterexample :
    (sampleProc.engine.run sampleProc.module [lit "BENTHOS_WASI", [104, 105]]).stderr = [7] ∧
    (sampleProc.Process sampleFS (NewMessage [104, 105])).panicked = false ∧
    (sampleProc.Process sampleFS (NewMessage [104, 105])).err = none ∧
    (sampleProc.Process sampleFS (NewMessage [104, 105])).batch
      = some [NewMessage [104, 105, 33]] := by
  refine ⟨rfl, rfl, rfl, rfl⟩

/-- C6, as the code has it: the file-redirected `Process` never looks at the guest's
error stream.  Replacing what the guest writes there by any bytes `e` changes
nothing in what `Process` returns or leaves behind; and a run that ends
normally gives no error and the one-message batch of the standard output
also when the error stream is not empty. -/
theorem C6_stderr_not_inspected (p : wasmtimeWASIProcessor) (fs : FS) (msg : Message)
    (e : Bytes) :
    ((p.withStderr e).Process fs msg).panicked
      = (p.Process fs msg).panicked ∧
    ((p.withStderr e).Process fs msg).batch
      = (p.Process fs msg).batch ∧
    ((p.withStderr e).Process fs msg).err
      = (p.Process fs msg).err ∧
    ((p.withStderr e).Process fs msg).msg
      = (p.Process fs msg).msg ∧
    ((p.withStderr e).Process fs msg).fs
      = (p.Process fs msg).fs ∧
    (∀ b, msg.AsBytes = .ok b → fs.canOpen p.stdoutPath = true →
      (p.engine.run p.module [lit "BENTHOS_WASI", b]).instantiateErr = none →
      (p.engine.run p.module [lit "BENTHOS_WASI", b]).hasStart = true →
      (p.engine.run p.module [lit "BENTHOS_WASI", b]).callErr = none →
      (p.Process fs msg).err = none ∧
      (p.Process fs msg).batch
        = some [msg.SetBytes (p.engine.run p.module [lit "BENTHOS_WASI", b]).stdout]) := by
  have hlast : ∀ b, msg.AsBytes = .ok b → fs.canOpen p.stdoutPath = true →
      (p.engine.run p.module [lit "BENTHOS_WASI", b]).instantiateErr = none →
      (p.engine.run p.module [lit "BENTHOS_WASI", b]).hasStart = true →
      (p.engine.run p.module [lit "BENTHOS_WASI", b]).callErr = none →
      (p.Process fs msg).err = none ∧
      (p.Process fs msg).batch
        = some [msg.SetBytes (p.engine.run p.module [lit "BENTHOS_WASI", b]).stdout] := by
    intro b hb hopen hinst hstart hcall
    rw [wasmtime_process_reached p fs msg b hb hopen]
    simp [hinst, hstart, hcall]
  refine ⟨?_, ?_, ?_, ?_, ?_, hlast⟩ <;>
  · cases hm : msg.AsBytes with
    | error err =>
      rw [wasmtime_process_of_error (p.withStderr e) fs msg err hm,
        wasmtime_process_of_error p fs msg err hm]
    | ok b =>
      cases hopen : fs.canOpen p.stdoutPath with
      | false =>
        rw [wasmtime_process_blocked (p.withStderr e) fs msg b hm hopen,
          wasmtime_process_blocked p fs msg b hm hopen] <;> rfl
      | true =>
        rw [wasmtime_process_reached (p.withStderr e) fs msg b hm hopen,
          wasmtime_process_reached p fs msg b hm hopen]
        simp only [wasmtimeWASIProcessor.withStderr]
        cases (p.engine.run p.module [lit "BENTHOS_WASI", b]).instantiateErr with
        | some e => rfl
        | none =>
          cases (p.engine.run p.module [lit "BENTHOS_WASI", b]).hasStart with
          | false => rfl
          | true =>
            cases (p.engine.run p.module [lit "BENTHOS_WASI", b]).callErr with
            | some e => rfl
            | none => rfl

theorem C6_stderr_not_inspected_witness :
    (sampleProc.Process sampleFS (NewMessage [104])).err = none ∧
    (sampleProc.Process sampleFS (NewMessage [104])).batch = some [NewMessage [104, 33]] :=
  (C6_stderr_not_inspected sampleProc sampleFS (NewMessage [104]) [1]).2.2.2.2.2
    [104] rfl (by decide) rfl rfl rfl


/-! ## Construction and teardown of the wasmtime processor -/

theorem os.mkdirTempLoop_ok (fs : FS) (dir : Path) (pattern : String) (rs : List String)
    (fs1 : FS) (name : Path) (h : os.mkdirTempLoop fs dir pattern rs = .ok (fs1, name)) :
    fs.get name = none ∧ fs.isDir dir = true ∧ fs1 = fs.put name .dir ∧
    ∃ r, r ∈ rs ∧ name = filepath.Join dir (pattern ++ r) := by
  induction rs with
  | nil => simp [os.mkdirTempLoop] at h
  | cons r rs ih =>
    simp only [os.mkdirTempLoop] at h
    by_cases hex : (fs.get (filepath.Join dir (pattern ++ r))).isSome = true
    · simp only [hex, if_true] at h
      obtain ⟨h1, h2, h3, r', hr', h4⟩ := ih h
      exact ⟨h1, h2, h3, r', List.mem_cons_of_mem _ hr', h4⟩
    · simp only [hex] at h
      by_cases hd : fs.isDir dir = true
      · simp only [hd, if_true, if_false, Except.ok.injEq, Prod.mk.injEq] at h
        obtain ⟨h1, h2⟩ := h
        exact ⟨by simpa using hex, hd, rfl, r, List.mem_cons_self _ _, rfl⟩
      · simp [hd] at h

/-- What construction gives when no scratch directory is supplied. -/
theorem newWasmtimeWASIProcessor_temp (engine : Engine) (env : os.Env) (fs : FS)
    (wasmBinary : Bytes) (p : wasmtimeWASIProcessor) (fs1 : FS)
    (h : newWasmtimeWASIProcessor engine env fs wasmBinary [] = .ok (p, fs1)) :
    p.removeIODir = true ∧ p.stdoutPath = filepath.Join p.ioDir "tmp.stdout" ∧
    fs.get p.ioDir = none ∧ fs1 = fs.put p.ioDir .dir ∧
    ∃ r, r ∈ env.random ∧ p.ioDir = filepath.Join env.TempDir ("benthos_wasi_proc" ++ r) := by
  unfold newWasmtimeWASIProcessor at h
  cases hm : engine.NewModule wasmBinary with
  | some e => simp [hm] at h
  | none =>
    cases hw : engine.DefineWasi with
    | some e => simp [hm, hw] at h
    | none =>
      simp only [hm, hw, if_true] at h
      cases ht : os.MkdirTemp env fs [] "benthos_wasi_proc" with
      | error e => simp [ht] at h
      | ok res =>
        obtain ⟨fs2, dir⟩ := res
        simp only [ht, Except.ok.injEq, Prod.mk.injEq] at h
        obtain ⟨hp, hfs⟩ := h
        subst hp hfs
        simp only [os.MkdirTemp, if_true] at ht
        obtain ⟨h1, _, h3, h4⟩ := os.mkdirTempLoop_ok _ _ _ _ _ _ ht
        exact ⟨rfl, rfl, h1, h3, h4⟩

/-- What construction gives on a scratch directory supplied by the caller. -/
theorem newWasmtimeWASIProcessor_given (engine : Engine) (env : os.Env) (fs : FS)
    (wasmBinary : Bytes) (ioDir : Path) (p : wasmtimeWASIProcessor) (fs1 : FS)
    (hdir : ioDir ≠ [])
    (h : newWasmtimeWASIProcessor engine env fs wasmBinary ioDir = .ok (p, fs1)) :
    p.removeIODir = false ∧ p.ioDir = ioDir ∧
    p.stdoutPath = filepath.Join ioDir "tmp.stdout" ∧ fs1 = fs := by
  unfold newWasmtimeWASIProcessor at h
  cases hm : engine.NewModule wasmBinary with
  | some e => simp [hm] at h
  | none =>
    cases hw : engine.DefineWasi with
    | some e => simp [hm, hw] at h
    | none =>
      simp only [hm, hw, hdir, if_false, Except.ok.injEq, Prod.mk.injEq] at h
      obtain ⟨hp, hfs⟩ := h
      subst hp hfs
      exact ⟨rfl, rfl, rfl, rfl⟩

/-- `Close` of a processor that does not own its directory: no error, and the
filesystem is the one before, or the one before without the scratch path. -/
theorem wasmtime_close_given (p : wasmtimeWASIProcessor) (fs : FS)
    (h : p.removeIODir = false) :
    (p.Close fs).2 = none ∧
    ((p.Close fs).1 = fs ∨ (p.Close fs).1 = fs.erase p.stdoutPath) := by
  unfold wasmtimeWASIProcessor.Close os.Remove
  simp only [h, Bool.false_eq_true, if_false]
  cases hg : fs.get p.stdoutPath with
  | none => simp
  | some node =>
    cases node with
    | file old => simp
    | dir => by_cases hb : fs.hasEntryBelow p.stdoutPath = true <;> simp [hb]


/-- C7: scratch ownership decides what `Close` removes.  A processor built without a
scratch directory owns a directory that did not exist before and exists
after construction, and its `Close` removes that directory with everything
below it and nothing else.  A processor built on a caller's directory does
not own it, construction leaves the filesystem as it was, and its `Close`
returns nil and changes nothing but the path `tmp.stdout` inside that
directory, which it removes when it is a regular file: the directory itself
and every other path stay as they were. -/
theorem C7_scratch_ownership (engine : Engine) (env : os.Env) (fs : FS) (wasmBinary : Bytes)
    (p : wasmtimeWASIProcessor) (fs1 : FS) :
    (newWasmtimeWASIProcessor engine env fs wasmBinary [] = .ok (p, fs1) →
      p.removeIODir = true ∧ fs.get p.ioDir = none ∧ fs1.get p.ioDir = some .dir ∧
      p.stdoutPath = filepath.Join p.ioDir "tmp.stdout" ∧
      ∀ fs2 : FS, (p.Close fs2).2 = none ∧
        ∀ q, (p.Close fs2).1.get q = if p.ioDir <+: q then none else fs2.get q) ∧
    (∀ ioDir : Path, ioDir ≠ [] →
      newWasmtimeWASIProcessor engine env fs wasmBinary ioDir = .ok (p, fs1) →
      p.removeIODir = false ∧ p.ioDir = ioDir ∧
      p.stdoutPath = filepath.Join ioDir "tmp.stdout" ∧ fs1 = fs ∧
      ∀ fs2 : FS, (p.Close fs2).2 = none ∧
        (∀ q, q ≠ filepath.Join ioDir "tmp.stdout" → (p.Close fs2).1.get q = fs2.get q) ∧
        (p.Close fs2).1.get ioDir = fs2.get ioDir ∧
        (∀ data, fs2.get (filepath.Join ioDir "tmp.stdout") = some (.file data) →
          (p.Close fs2).1.get (filepath.Join ioDir "tmp.stdout") = none)) := by
  constructor
  · intro h
    obtain ⟨hown, hpath, hfresh, hfs1, r, _, hname⟩ :=
      newWasmtimeWASIProcessor_temp engine env fs wasmBinary p fs1 h
    refine ⟨hown, hfresh, by simp [hfs1, FS.get_put], hpath, ?_⟩
    intro fs2
    have hne : p.ioDir ≠ [] := by simp [hname, filepath.Join]
    simp [wasmtimeWASIProcessor.Close, hown, os.RemoveAll, hne, FS.get_eraseTree]
  · intro ioDir hdir h
    obtain ⟨hown, hio, hpath, hfs1⟩ :=
      newWasmtimeWASIProcessor_given engine env fs wasmBinary ioDir p fs1 hdir h
    refine ⟨hown, hio, hpath, hfs1, ?_⟩
    intro fs2
    obtain ⟨herr, hfs⟩ := wasmtime_close_given p fs2 hown
    rw [hpath] at hfs
    have hself : ioDir ≠ filepath.Join ioDir "tmp.stdout" := by
      intro heq
      have := congrArg List.length heq
      simp [filepath.Join] at this
    have hframe : ∀ q, q ≠ filepath.Join ioDir "tmp.stdout" →
        (p.Close fs2).1.get q = fs2.get q := by
      intro q hq
      rcases hfs with h' | h'
      · rw [h']
      · rw [h', FS.get_erase]; simp [hq]
    refine ⟨herr, hframe, hframe ioDir hself, ?_⟩
    intro data hdata
    simp [wasmtimeWASIProcessor.Close, hown, hpath, os.Remove, hdata, FS.get_erase]

theorem C7_scratch_ownership_witness :
    (∃ p fs1, newWasmtimeWASIProcessor echoEngine ⟨["tmp"], ["0", "1"]⟩ sampleFS [0] []
        = .ok (p, fs1) ∧ p.removeIODir = true ∧ fs1.get p.ioDir = some .dir ∧
        ∀ q, (p.Close fs1).1.get q = if p.ioDir <+: q then none else fs1.get q) ∧
    (∃ p, newWasmtimeWASIProcessor echoEngine ⟨["tmp"], ["0", "1"]⟩ sampleFS [0] ["data"]
        = .ok (p, sampleFS) ∧ p.removeIODir = false ∧
        (p.Close sampleFS).1.get ["data"] = sampleFS.get ["data"] ∧
        (p.Close sampleFS).1.get ["data", "tmp.stdout"] = none) :=
  ⟨⟨_, _, rfl,
      ((C7_scratch_ownership echoEngine ⟨["tmp"], ["0", "1"]⟩ sampleFS [0] _ _).1 rfl).1,
      ((C7_scratch_ownership echoEngine ⟨["tmp"], ["0", "1"]⟩ sampleFS [0] _ _).1 rfl).2.2.1,
      fun q =>
        ((((C7_scratch_ownership echoEngine ⟨["tmp"], ["0", "1"]⟩ sampleFS [0] _ _).1
          rfl).2.2.2.2 _).2 q)⟩,
   ⟨_, rfl,
      ((C7_scratch_ownership echoEngine ⟨["tmp"], ["0", "1"]⟩ sampleFS [0] _ _).2 ["data"]
        (by decide) rfl).1,
      ((C7_scratch_ownership echoEngine ⟨["tmp"], ["0", "1"]⟩ sampleFS [0] _ _).2 ["data"]
        (by decide) rfl).2.2.2.2 sampleFS |>.2.2.1,
      ((C7_scratch_ownership echoEngine ⟨["tmp"], ["0", "1"]⟩ sampleFS [0] _ _).2 ["data"]
        (by decide) rfl).2.2.2.2 sampleFS |>.2.2.2 [9, 9, 9, 9, 9, 9, 9, 9] (by decide)⟩⟩

/-- C8: teardown is idempotent.  For every processor, owner of its directory or
not, and every filesystem, `Close` right after a `Close` that returned nil
returns nil and leaves the filesystem exactly as the first one left it; and
`Close` is not an error, and changes nothing, when its target is already
absent (the scratch directory with all below it, or the scratch file). -/
theorem C8_close_idempotent (p : wasmtimeWASIProcessor) (fs : FS) :
    ((p.Close fs).2 = none → p.Close (p.Close fs).1 = ((p.Close fs).1, none)) ∧
    (p.removeIODir = true → (∀ q, p.ioDir <+: q → fs.get q = none) →
      p.Close fs = (fs, none)) ∧
    (p.removeIODir = false → fs.get p.stdoutPath = none → p.Close fs = (fs, none)) := by
  refine ⟨?_, ?_, ?_⟩
  · intro _
    cases hown : p.removeIODir with
    | true =>
      by_cases hd : p.ioDir = []
      · simp [wasmtimeWASIProcessor.Close, hown, os.RemoveAll, hd]
      · simp [wasmtimeWASIProcessor.Close, hown, os.RemoveAll, hd, FS.eraseTree_eraseTree]
    | false =>
      have hgone : ∀ fs0 : FS, fs0.get p.stdoutPath = none →
          p.Close fs0 = (fs0, none) := by
        intro fs0 h0
        simp [wasmtimeWASIProcessor.Close, hown, os.Remove, h0]
      cases hg : fs.get p.stdoutPath with
      | none => rw [hgone fs hg, hgone fs hg]
      | some node =>
        have hrm : (fs.erase p.stdoutPath).get p.stdoutPath = none := by simp [FS.get_erase]
        cases node with
        | file old =>
          have h1 : p.Close fs = (fs.erase p.stdoutPath, none) := by
            simp [wasmtimeWASIProcessor.Close, hown, os.Remove, hg]
          rw [h1, hgone _ hrm]
        | dir =>
          by_cases hb : fs.hasEntryBelow p.stdoutPath = true
          · have h1 : p.Close fs = (fs, none) := by
              simp [wasmtimeWASIProcessor.Close, hown, os.Remove, hg, hb]
            rw [h1, h1]
          · have h1 : p.Close fs = (fs.erase p.stdoutPath, none) := by
              simp [wasmtimeWASIProcessor.Close, hown, os.Remove, hg, hb]
            rw [h1, hgone _ hrm]
  · intro hown habs
    by_cases hd : p.ioDir = []
    · simp [wasmtimeWASIProcessor.Close, hown, os.RemoveAll, hd]
    · simp [wasmtimeWASIProcessor.Close, hown, os.RemoveAll, hd,
        FS.eraseTree_of_absent fs p.ioDir habs]
  · intro hown habs
    simp [wasmtimeWASIProcessor.Close, hown, os.Remove, habs]

theorem C8_close_idempotent_witness :
    sampleProc.Close (sampleProc.Close sampleFS).1 = ((sampleProc.Close sampleFS).1, none) ∧
    wasmtimeWASIProcessor.Close { sampleProc with removeIODir := true }
        (wasmtimeWASIProcessor.Close { sampleProc with removeIODir := true } sampleFS).1
      = ((wasmtimeWASIProcessor.Close { sampleProc with removeIODir := true } sampleFS).1,
          none) ∧
    sampleProc.Close ⟨[(["data"], .dir)]⟩ = (⟨[(["data"], .dir)]⟩, none) :=
  ⟨(C8_close_idempotent sampleProc sampleFS).1 rfl,
   (C8_close_idempotent { sampleProc with removeIODir := true } sampleFS).1 rfl,
   (C8_close_idempotent sampleProc ⟨[(["data"], .dir)]⟩).2.2 rfl rfl⟩


/-! ## The argument vector and the atomicity of failures -/

/-- C9 at its failing inputs.  On a wazero runtime that turns down an argument with
a zero byte, the payload `[255, 0]` makes `Process` panic (the engine's nil
module is closed before the error is looked at), while a payload without a
zero byte reaches the guest whole.  On a wasmtime engine that hands the
arguments over as C strings, the payload `[104, 0, 105]` is given to the
engine whole, the guest reads `[104]` only, and `Process` returns the batch
of `[104, 33]` without an error. -/
theorem C9_zero_byte_payload_not_handed_over :
    (strictProc.Process (NewMessage [255, 0])).panicked = true ∧
    (strictProc.Process (NewMessage [255, 0])).batch = none ∧
    (strictProc.Process (NewMessage [255, 0])).err = none ∧
    (strictProc.Process (NewMessage [255, 1])).batch = some [NewMessage [255, 1]] ∧
    (cStringProc.Process sampleFS (NewMessage [104, 0, 105])).argv
      = some [lit "BENTHOS_WASI", [104, 0, 105]] ∧
    (cStringProc.Process sampleFS (NewMessage [104, 0, 105])).err = none ∧
    (cStringProc.Process sampleFS (NewMessage [104, 0, 105])).batch
      = some [NewMessage [104, 33]] := by
  refine ⟨rfl, rfl, rfl, rfl, by decide, rfl, rfl⟩

/-- Whenever either `Process` returns an error, the batch it returns is nil and
the message still has the contents it had on entry; and neither `Process`
changes a field of its processor, however the call ends. -/
theorem process_error_return_is_atomic (msg : Message) :
    (∀ p : wazeroWASIProcessor,
      (p.Process msg).proc = p ∧
      ((p.Process msg).err ≠ none → (p.Process msg).batch = none ∧ (p.Process msg).msg = msg)) ∧
    (∀ (p : wasmtimeWASIProcessor) (fs : FS),
      (p.Process fs msg).proc = p ∧
      ((p.Process fs msg).err ≠ none →
        (p.Process fs msg).batch = none ∧ (p.Process fs msg).msg = msg)) := by
  constructor
  · intro p
    cases hm : msg.AsBytes with
    | error e => rw [wazero_process_of_error p msg e hm]; simp
    | ok b =>
      rw [wazero_process_of_bytes p msg b hm]
      dsimp only
      by_cases hs : (p.runtime.InstantiateModule p.code [lit "benthos_wasi", b]).stderr = []
      all_goals
        by_cases hn : (p.runtime.InstantiateModule p.code [lit "benthos_wasi", b]).nilOnFailure
          = true
        all_goals
          cases (p.runtime.InstantiateModule p.code [lit "benthos_wasi", b]).err with
          | none => simp [hs]
          | some e =>
            cases e with
            | exitError c => cases c <;> simp [hs]
            | _ => simp [hn]
  · intro p fs
    cases hm : msg.AsBytes with
    | error e => rw [wasmtime_process_of_error p fs msg e hm]; simp
    | ok b =>
      cases hopen : fs.canOpen p.stdoutPath with
      | false => rw [wasmtime_process_blocked p fs msg b hm hopen]; simp
      | true =>
        rw [wasmtime_process_reached p fs msg b hm hopen]
        dsimp only
        cases (p.engine.run p.module [lit "BENTHOS_WASI", b]).instantiateErr with
        | some e => simp
        | none =>
          cases (p.engine.run p.module [lit "BENTHOS_WASI", b]).hasStart with
          | false => simp
          | true =>
            cases (p.engine.run p.module [lit "BENTHOS_WASI", b]).callErr with
            | some e => simp
            | none => simp

/-- C10 at its failing input.  When the module cannot be instantiated, the wazero
engine gives a nil module and an error, and `Process` panics on closing the
nil module before it looks at the error: no nil batch and error are
returned for this failure.  The wasmtime `Process` on a failed
instantiation does return a nil batch and the wrapped error, with the
message as it was. -/
theorem C10_failed_instantiation_panics :
    (unlinkedProc.runtime.InstantiateModule unlinkedProc.code [lit "benthos_wasi", [104]]).err
      = some (.other (lit "instantiation failed")) ∧
    (unlinkedProc.runtime.InstantiateModule unlinkedProc.code
      [lit "benthos_wasi", [104]]).modIsNil = true ∧
    (unlinkedProc.Process (NewMessage [104])).panicked = true ∧
    (unlinkedProc.Process (NewMessage [104])).err = none ∧
    (unlinkedProc.Process (NewMessage [104])).batch = none ∧
    (wasmtimeWASIProcessor.Process
      { sampleProc with engine := { echoEngine with
          run := fun _ _ => ⟨some (.other (lit "instantiation failed")), true, none, [], []⟩ } }
      sampleFS (NewMessage [104])).err
      = some (.wrapError (lit "failed to create wasmtime instance: ")
          (.other (lit "instantiation failed"))) ∧
    (wasmtimeWASIProcessor.Process
      { sampleProc with engine := { echoEngine with
          run := fun _ _ => ⟨some (.other (lit "instantiation failed")), true, none, [], []⟩ } }
      sampleFS (NewMessage [104])).batch = none := by
  refine ⟨rfl, rfl, rfl, rfl, rfl, by decide, rfl⟩

end Wasm
